import Mathlib

set_option autoImplicit false

/-!
Verification of the tsh repository (a thin Python layer over OS process
creation).  The Python modules `tsh/command.py`, `tsh/process.py` and
`tsh/contexts.py` are shallowly embedded below: pure data manipulation
becomes Lean functions, OS interaction (executable lookup, spawning,
signals, the file system) is abstracted into explicit oracle arguments,
and Python exceptions become `Except` results.
-/

namespace Tsh

/-- Python exception outcomes that the embedded tsh code can produce.
OSError subclasses raised by OS calls are collapsed into `osError`;
`commandNotFound` embeds `tsh.errors.CommandNotFound` and carries the
message string passed to the constructor. -/
inductive PyErr where
  | commandNotFound (message : String)
  | attributeError
  | indexError
  | osError
  deriving DecidableEq

/-- Lookup in a Python dict modelled as an insertion-ordered association
list with unique keys (the first matching entry wins). -/
def dictLookup {α : Type} (d : List (String × α)) (k : String) : Option α :=
  match d with
  | [] => none
  | kv :: rest => if kv.1 = k then some kv.2 else dictLookup rest k

/-- Python dict assignment `d[k] = v`: updates the entry in place when the
key is present, otherwise appends it (insertion order semantics). -/
def dictInsert {α : Type} (d : List (String × α)) (k : String) (v : α) :
    List (String × α) :=
  if (dictLookup d k).isSome then
    d.map (fun kv => if kv.1 = k then (k, v) else kv)
  else
    d ++ [(k, v)]

/-- Python dict-literal merge as in the source's dict unpacking of two
dicts: start from `a` and assign every entry of `b` in order. -/
def dictUpdate {α : Type} (a b : List (String × α)) : List (String × α) :=
  b.foldl (fun d kv => dictInsert d kv.1 kv.2) a

/-- Python values stored in the Command options and kwargs dicts. -/
inductive PyVal where
  | pyBool (b : Bool)
  | pyStr (s : String)
  | pyNone
  deriving DecidableEq

/-- Python str() of a `PyVal`, as used by f-string rendering. -/
def PyVal.toStr : PyVal → String
  | .pyBool true => "True"
  | .pyBool false => "False"
  | .pyStr s => s
  | .pyNone => "None"

/-- tsh/command.py `Command`: a blueprint of a command run.  The fields
mirror `self.command`, `self.search_paths`, `self._options`, `self._args`
and `self._kwargs`. -/
structure Command where
  command : String
  search_paths : Option (List String)
  options : List (String × PyVal)
  args : List String
  kwargs : List (String × PyVal)
  deriving DecidableEq

/-- tsh/command.py `Command.DEFAULT_OPTIONS`. -/
def Command.DEFAULT_OPTIONS : List (String × PyVal) :=
  [("fg", .pyBool false), ("in", .pyNone), ("out", .pyNone), ("err", .pyNone),
   ("kwargs_sep", .pyStr " "), ("kwargs_prefix", .pyStr "--")]

/-- tsh/command.py `Command.__init__`.  Executable lookup by shutil.which
is an OS effect, passed in as the oracle `which` (its second argument is
the joined search path, exactly as built in the source from
`search_paths`).  When the oracle finds nothing the constructor raises
`CommandNotFound(command)` and no Command (and a fortiori no Process)
comes into existence. -/
def Command.init (which : String → Option String → Option String)
    (command : String) (search_paths : Option (List String)) :
    Except PyErr Command :=
  let path := search_paths.map (fun ps => String.intercalate ":" ps)
  match which command path with
  | none => .error (.commandNotFound command)
  | some found =>
    .ok { command := found, search_paths := search_paths,
          options := Command.DEFAULT_OPTIONS, args := [], kwargs := [] }

/-- The option overrides bake pops out of the keyword dict: one entry
per recognized option key found under its underscore-marked name, in
DEFAULT_OPTIONS iteration order. -/
def bakeOptionOverrides (kwargs : List (String × PyVal)) :
    List (String × PyVal) :=
  Command.DEFAULT_OPTIONS.filterMap
    (fun opt => (dictLookup kwargs ("_" ++ opt.1)).map (fun v => (opt.1, v)))

/-- The keyword arguments remaining after bake pops the recognized
underscore-marked option keys. -/
def bakeRemainingKwargs (kwargs : List (String × PyVal)) :
    List (String × PyVal) :=
  kwargs.filter
    (fun kv =>
      !(Command.DEFAULT_OPTIONS.map (fun opt => "_" ++ opt.1)).contains kv.1)

/-- tsh/command.py `Command.bake`: builds a fresh Command (re-resolving
the executable), concatenates positional args, splits recognized
`_option` keys out of the keyword dict into option overrides, and merges
kwargs and options with dict-unpacking semantics. -/
def Command.bake (which : String → Option String → Option String)
    (c : Command) (args : List String) (kwargs : List (String × PyVal)) :
    Except PyErr Command :=
  match Command.init which c.command c.search_paths with
  | .error e => .error e
  | .ok cmd =>
    .ok { cmd with
          args := c.args ++ args,
          kwargs := dictUpdate c.kwargs (bakeRemainingKwargs kwargs),
          options := dictUpdate c.options (bakeOptionOverrides kwargs) }

/-- String-valued option lookup.  The source indexes the options dict
directly; both keys used this way are present in every reachable options
dict, so the fallback value is never consulted. -/
def getStrOpt (opts : List (String × PyVal)) (key : String) : String :=
  match dictLookup opts key with
  | some (.pyStr s) => s
  | _ => ""

/-- tsh/command.py `Command.command_list`: executable, positional args,
then each kwargs entry rendered with the configured separator and key
marker. -/
def Command.command_list (c : Command) : List String :=
  let sep := getStrOpt c.options "kwargs_sep"
  let pfx := getStrOpt c.options "kwargs_prefix"
  (c.command :: c.args) ++ c.kwargs.flatMap
    (fun kv =>
      if sep = " " then [pfx ++ kv.1, kv.2.toStr]
      else [pfx ++ kv.1 ++ sep ++ kv.2.toStr])

/-- A heap of Command objects, to state frame properties of `bake`: the
Python method allocates a new object and writes only to the new object's
fields, never to `self`. -/
structure Store where
  cmds : List Command
  deriving DecidableEq

/-- Heap read. -/
def Store.read (st : Store) (r : Nat) : Option Command := st.cmds[r]?

/-- `bake` acting on the heap: reads the receiver at `r`, allocates the
baked Command at a fresh address and returns that address. -/
def Store.bakeAt (which : String → Option String → Option String)
    (st : Store) (r : Nat) (args : List String)
    (kwargs : List (String × PyVal)) : Except PyErr (Store × Nat) :=
  match st.read r with
  | none => .error .attributeError
  | some c =>
    match Command.bake which c args kwargs with
    | .error e => .error e
    | .ok c2 => .ok (⟨st.cmds ++ [c2]⟩, st.cmds.length)

/-- Modelled from the spec: the source imports a `consts` module (absent
from the repository sources) providing the default text encoding, which
the spec describes as a fixed system encoding constant. -/
def consts.encoding : String := "utf-8"

/-- Whether a POSIX path is absolute: it begins with a slash. -/
def isAbsolute (p : String) : Bool :=
  match p.data with
  | [] => false
  | c :: _ => c == '/'

/-- os.path.abspath relative to a current working directory (path
normalization beyond anchoring is irrelevant to the claims). -/
def abspath (cwd : String) (p : String) : String :=
  if isAbsolute p then p else cwd ++ "/" ++ p

/-- State of the native subprocess.Popen handle: its pid and the exit
status the OS has reported so far (`returncode`). -/
structure Popen where
  pid : Nat
  returncode : Option Int
  deriving DecidableEq

/-- A value passed to Popen for stdout/stderr.  `pipe` is
subprocess.PIPE, `fileW p` an open binary-write file object for path `p`,
and `mergeToStdout` is subprocess.STDOUT (share the stdout stream).  The
Python value None (inherit the parent's stream) is the `none` of an
`Option WriterTarget`. -/
inductive WriterTarget where
  | pipe
  | fileW (path : String)
  | mergeToStdout
  deriving DecidableEq

/-- tsh/process.py `Process`: the fields mirror `self._command`,
`self._process`, `self._wait_thread` (`none` when no waiter thread
exists, `some j` when one exists with join flag `j`), `self._stdout`,
`self._stderr`, `self._demux`, `self._stdout_writer`,
`self._stderr_writer`, `self._working_dir` and `self.encoding`. -/
structure Process where
  command : List String
  process : Option Popen
  waitThreadJoined : Option Bool
  stdout : Option String
  stderr : Option String
  demux : Bool
  stdoutWriter : Option WriterTarget
  stderrWriter : Option WriterTarget
  working_dir : String
  encoding : String
  deriving DecidableEq

/-- tsh/process.py `Process.__init__` (cwd is the caller's current
working directory used by os.path.abspath and the default working dir). -/
def Process.init (cwd : String) (command : List String)
    (stdout stderr : Option String) (demux : Bool)
    (working_dir : Option String) (encoding : String) : Process :=
  { command := command, process := none, waitThreadJoined := none,
    stdout := stdout.map (abspath cwd), stderr := stderr.map (abspath cwd),
    demux := demux, stdoutWriter := none, stderrWriter := none,
    working_dir := working_dir.getD cwd, encoding := encoding }

/-- OS outcome of the spawn attempted by `start()`: whether
subprocess.Popen raises OSError, and the pid assigned on success. -/
structure SpawnOS where
  spawnFails : Bool
  newPid : Nat
  deriving DecidableEq

/-- tsh/process.py `Process.start`.  Sets up the stdout writer, then the
stderr writer — where the demux-false branch of the source is the
self-assignment on line 111 and therefore keeps the constructor's value —
then spawns, turning an OSError from Popen into
CommandNotFound('Executable "name" not found'), and on success records
the handle and launches the waiter thread. -/
def Process.start (os : SpawnOS) (s : Process) : Except PyErr Process :=
  let s1 : Process :=
    { s with stdoutWriter := some (match s.stdout with
        | none => .pipe
        | some p => .fileW p) }
  let s2 : Process :=
    { s1 with stderrWriter :=
        if s1.demux then
          some (match s1.stderr with
            | none => .pipe
            | some p => .fileW p)
        else s1.stderrWriter }
  if os.spawnFails then
    .error (.commandNotFound
      ("Executable \"" ++ s2.command.headD "" ++ "\" not found"))
  else
    .ok { s2 with process := some { pid := os.newPid, returncode := none },
                  waitThreadJoined := some false }

/-- tsh/process.py `Process.is_running`. -/
def Process.is_running (s : Process) : Bool :=
  match s.process with
  | none => false
  | some p => p.returncode.isNone

/-- tsh/process.py `Process.pid`. -/
def Process.pid (s : Process) : Option Nat :=
  if s.is_running then s.process.map (fun p => p.pid) else none

/-- tsh/process.py `Process.exit_code`: when not running it evaluates
`self._process.returncode`, which dereferences None — an AttributeError —
whenever the handle is absent. -/
def Process.exit_code (s : Process) : Except PyErr (Option Int) :=
  if s.is_running then .ok none
  else
    match s.process with
    | none => .error .attributeError
    | some p => .ok p.returncode

/-- OS outcome of the kill sequence: whether each OS call of
`Process.kill` raises OSError, whether the child dies during the
`self.wait(0.5)` polling and with which status, and whether the child is
its own process-group leader. -/
structure KillOS where
  killRaises : Bool
  diesDuringWait : Bool
  waitedCode : Int
  getpgidRaises : Bool
  isGroupLeader : Bool
  killpgRaises : Bool
  killRaises2 : Bool
  deriving DecidableEq

/-- The state left by the success path of `kill`: waiter thread joined
and the native handle cleared. -/
def Process.cleared (s : Process) : Process :=
  { s with waitThreadJoined := some true, process := none }

/-- Tail of the kill sequence: `self._wait_thread.join()` (AttributeError
if no waiter thread exists — unreachable from states produced by
`start`), clear the handle, return True. -/
def Process.killFinish (s : Process) : Except PyErr (Process × Option Bool) :=
  match s.waitThreadJoined with
  | none => .error .attributeError
  | some _ => .ok (s.cleared, some true)

/-- The state of the Process after the `self.wait(0.5)` polling inside
`kill`: if the child died during the brief wait the waiter thread has
recorded its exit status in the handle. -/
def Process.killAfterWait (os : KillOS) (s : Process) (h : Popen) : Process :=
  if os.diesDuringWait then
    { s with process := some { h with returncode := some os.waitedCode } }
  else s

/-- tsh/process.py `Process.kill`: None when there is no handle; any
OSError in the sequence is swallowed into False; otherwise signal, wait
briefly, escalate with SIGKILL to the process group or the process if
still running, join the waiter, clear the handle and return True. -/
def Process.kill (os : KillOS) (s : Process) :
    Except PyErr (Process × Option Bool) :=
  match s.process with
  | none => .ok (s, none)
  | some h =>
    if os.killRaises then .ok (s, some false)
    else
      if (Process.killAfterWait os s h).is_running then
        if os.getpgidRaises then .ok (Process.killAfterWait os s h, some false)
        else if os.isGroupLeader then
          if os.killpgRaises then .ok (Process.killAfterWait os s h, some false)
          else (Process.killAfterWait os s h).killFinish
        else
          if os.killRaises2 then .ok (Process.killAfterWait os s h, some false)
          else (Process.killAfterWait os s h).killFinish
      else (Process.killAfterWait os s h).killFinish

/-- The polling loop of `Process.wait` with a timeout: `running k` says
whether `is_running` holds at the k-th poll tick (ticks are the fixed
0.1 s sleep interval of the source); `fuel` is the number of loop
iterations permitted by the deadline check. -/
def waitPoll (running : Nat → Bool) : Nat → Nat → Bool
  | 0, _ => false
  | fuel + 1, k => if running k then waitPoll running fuel (k + 1) else true

/-- tsh/process.py `Process.wait` with a timeout (in seconds, per its
docstring).  The source's loop guard compares elapsed wall-clock seconds
against `timeout * 1000`, so with the 0.1 s sleep it permits
`timeout * 10000` polls before giving up. -/
def Process.wait_timeout (running : Nat → Bool) (timeout : Nat) : Bool :=
  waitPoll running (timeout * 10000) 0

/-- Modelled from the spec: `wait(timeout)` as specified polls only until
`timeout` seconds have elapsed, i.e. `timeout * 10` polls at the 0.1 s
interval. -/
def wait_timeout_spec (running : Nat → Bool) (timeout : Nat) : Bool :=
  waitPoll running (timeout * 10) 0

/-- The child's standard input as observed by the embedded `write`:
the encoded chunks written so far (each tagged with the encoding used)
and whether the stream was flushed after the last write. -/
structure Stdin where
  chunks : List (String × String)
  flushed : Bool
  deriving DecidableEq

/-- tsh/process.py `Process.write`: indexing `string[-1]` raises
IndexError exactly when the string is empty; otherwise a trailing newline
is appended when absent, the text is encoded with `self.encoding`,
written to `self._process.stdin` (AttributeError when the handle is
absent) and flushed. -/
def Process.write (s : Process) (stdin : Stdin) (string : String) :
    Except PyErr Stdin :=
  if string = "" then .error .indexError
  else
    let string2 := if string.back = '\n' then string else string ++ "\n"
    match s.process with
    | none => .error .attributeError
    | some _ =>
      .ok { chunks := stdin.chunks ++ [(s.encoding, string2)],
            flushed := true }

/-- The file system seen by the file-backed read paths: a map from path
to current decoded contents. -/
structure Files where
  entries : List (String × String)
  deriving DecidableEq

/-- Contents of the child's stderr pipe that are currently buffered and
not yet consumed by a read. -/
structure ErrPipe where
  buffered : String
  deriving DecidableEq

/-- tsh/process.py `Process.eread`: with demux the pipe-backed branch
drains and decodes `self._process.stderr` (AttributeError when the handle
is absent) and the file-backed branch re-reads the whole file; without
demux it returns the empty string unconditionally. -/
def Process.eread (s : Process) (pipe : ErrPipe) (fs : Files) :
    Except PyErr (String × ErrPipe) :=
  if s.demux then
    match s.stderr with
    | none =>
      match s.process with
      | none => .error .attributeError
      | some _ => .ok (pipe.buffered, ⟨""⟩)
    | some path =>
      match dictLookup fs.entries path with
      | none => .error .osError
      | some contents => .ok (contents, pipe)
  else .ok ("", pipe)

/-- The world seen by tsh/contexts.py: the process-wide current working
directory and the set of existing directories. -/
structure World where
  cwd : String
  dirs : List String
  deriving DecidableEq

/-- os.makedirs(path, exist_ok=True). -/
def World.mkdirs (w : World) (p : String) : World :=
  if w.dirs.contains p then w else { w with dirs := p :: w.dirs }

/-- os.chdir: fails with OSError when the directory does not exist. -/
def World.chdir (w : World) (p : String) : Except PyErr World :=
  if w.dirs.contains p then .ok { w with cwd := p } else .error .osError

/-- tsh/contexts.py `pushd`: records `os.getcwd()`, resolves the target,
optionally creates it, changes into it, runs the with-block `body` (which
may itself change directory, create directories, and finish normally or
with an exception), and in the `finally` clause changes back to the
recorded directory. -/
def pushd (path : String) (create : Bool)
    (body : World → World × Except PyErr Unit) (w : World) :
    World × Except PyErr Unit :=
  let cwd := w.cwd
  let apath := abspath w.cwd path
  let w1 := if create then w.mkdirs apath else w
  match w1.chdir apath with
  | .error e => (w1, .error e)
  | .ok w2 =>
    let r := body w2
    match r.1.chdir cwd with
    | .error e => (r.1, .error e)
    | .ok w3 => (w3, r.2)

/-- The directory set right after the optional makedirs step of pushd. -/
def pushdDirs (w : World) (path : String) (create : Bool) : World :=
  if create then w.mkdirs (abspath w.cwd path) else w

/-- The world inside the with-block, right after pushd changed into the
target directory. -/
def pushdEntered (w : World) (path : String) (create : Bool) : World :=
  { pushdDirs w path create with cwd := abspath w.cwd path }

/-- Example which oracle that never finds an executable. -/
def whichNone : String → Option String → Option String := fun _ _ => none

/-- Example which oracle that resolves every name to itself. -/
def whichId : String → Option String → Option String := fun c _ => some c

/-- Example Process as constructed and never started. -/
def pUnstarted : Process :=
  Process.init "/" ["cat"] none none true none consts.encoding

/-- Example Process in the running state reached by a successful start
(pid 7, no exit status yet). -/
def pOn : Process :=
  { pUnstarted with process := some ⟨7, none⟩, waitThreadJoined := some false,
                    stdoutWriter := some .pipe, stderrWriter := some .pipe }

/-- Example kill-sequence outcome in which no OS call fails and the
child dies with status 0 during the brief wait. -/
def killOSOk : KillOS := ⟨false, true, 0, false, false, false, false⟩

/-- The state `pOn` ends in after a fully successful kill. -/
def pKilled : Process :=
  { pOn with process := none, waitThreadJoined := some true }

/-- A liveness trace of a child that is still running at the 1-second
mark of the poll loop and exits 2 seconds in (20 poll ticks of 0.1 s). -/
def runsForTwoSeconds : Nat → Bool := fun k => decide (k < 20)

/-- Example Process constructed with demux=False and no redirections. -/
def pDemuxOff : Process :=
  Process.init "/" ["cat"] none none false none consts.encoding

/-- Example Command with the default options (kwargs separator a space)
and one named argument. -/
def cSpace : Command :=
  ⟨"/bin/tool", none, Command.DEFAULT_OPTIONS, ["a1"],
   [("key", .pyStr "value")]⟩

/-- Example Command like `cSpace` but with the separator overridden to
the equals sign. -/
def cEq : Command :=
  ⟨"/bin/tool", none,
   [("fg", .pyBool false), ("in", .pyNone), ("out", .pyNone),
    ("err", .pyNone), ("kwargs_sep", .pyStr "="),
    ("kwargs_prefix", .pyStr "--")],
   ["a1"], [("key", .pyStr "value")]⟩

/-- Example receiver Command for baking. -/
def c0 : Command :=
  ⟨"/bin/tool", none, Command.DEFAULT_OPTIONS, ["a0"],
   [("k0", .pyStr "v0")]⟩

/-- Example keyword dict for a bake call: overrides kwargs key k0, adds
k2, and overrides the fg option through its underscore-marked name. -/
def kwargsW : List (String × PyVal) :=
  [("k0", .pyStr "v1"), ("k2", .pyStr "v2"), ("_fg", .pyBool true)]

/-- The Command that baking `kwargsW` and one positional argument onto
`c0` produces. -/
def c2W : Command :=
  ⟨"/bin/tool", none,
   [("fg", .pyBool true), ("in", .pyNone), ("out", .pyNone),
    ("err", .pyNone), ("kwargs_sep", .pyStr " "),
    ("kwargs_prefix", .pyStr "--")],
   ["a0", "x1"],
   [("k0", .pyStr "v1"), ("k2", .pyStr "v2")]⟩

/-- A successful `killFinish` joins the waiter and clears the handle,
returning True; it is the only way `kill` produces True. -/
theorem killFinish_ok (s t : Process) (r : Option Bool)
    (h : Process.killFinish s = .ok (t, r)) :
    t = s.cleared ∧ r = some true := by
  unfold Process.killFinish at h
  rcases hw : s.waitThreadJoined with _ | j
  · rw [hw] at h; cases h
  · rw [hw] at h
    simp only [Except.ok.injEq, Prod.mk.injEq] at h
    exact ⟨h.1.symm, h.2.symm⟩

/-- Whatever the OS reported during the brief wait, the waiter-thread
field survives it. -/
theorem killAfterWait_waitThread (os : KillOS) (s : Process) (h : Popen) :
    (Process.killAfterWait os s h).waitThreadJoined = s.waitThreadJoined := by
  unfold Process.killAfterWait
  split <;> rfl

/-- Calling `kill` with no native handle returns None and changes
nothing. -/
theorem kill_not_started (os : KillOS) (s : Process) (h : s.process = none) :
    Process.kill os s = .ok (s, none) := by
  unfold Process.kill
  rw [h]

/-- When `kill` returns True the resulting state has no native handle
and a joined waiter thread. -/
theorem kill_ok_some_true (os : KillOS) (s s' : Process)
    (h : Process.kill os s = .ok (s', some true)) :
    s'.process = none ∧ s'.waitThreadJoined = some true := by
  unfold Process.kill at h
  rcases hps : s.process with _ | hh
  · rw [hps] at h; simp at h
  · rw [hps] at h
    have fin : ∀ u : Process, Process.killFinish u = .ok (s', some true) →
        s'.process = none ∧ s'.waitThreadJoined = some true := by
      intro u hu
      obtain ⟨ht, _⟩ := killFinish_ok u s' (some true) hu
      rw [ht]
      exact ⟨rfl, rfl⟩
    repeat' split at h
    all_goals first
      | exact fin _ h
      | simp at h

/-- C1: the claim says `wait(t)` returns False once `t` seconds have
elapsed with the child still running.  The source compares elapsed
seconds against `timeout * 1000`, so for timeout 1 s and a child that is
still alive at the 1-second mark but exits at 2 seconds, the code keeps
polling past the claimed deadline and returns True, while the specified
behaviour returns False. -/
theorem C1_wait_timeout_unit_bug :
    Process.wait_timeout runsForTwoSeconds 1 = true ∧
    wait_timeout_spec runsForTwoSeconds 1 = false := by
  exact ⟨by decide, by decide⟩

/-- C2: starting a Process built with demux=False leaves the stderr
writer at the constructor's None (line 111 of process.py assigns
`self._stderr_writer` to itself), so the child inherits the parent's
stderr; it is not subprocess.STDOUT, hence stderr is not merged into the
stdout pipe as claimed. -/
theorem C2_demux_false_stderr_not_merged :
    (Process.start ⟨false, 7⟩ pDemuxOff).toOption.map Process.stderrWriter
        = some none ∧
    some (none : Option WriterTarget) ≠ some (some WriterTarget.mergeToStdout) := by
  exact ⟨rfl, by decide⟩

/-- C4: when the which oracle finds nothing, the Command constructor
fails with CommandNotFound carrying the requested name (and, returning
an error, builds no Command and spawns nothing); and when the OS spawn
in `Process.start` raises OSError, it surfaces as CommandNotFound
carrying the attempted executable name. -/
theorem C4_command_not_found
    (which : String → Option String → Option String)
    (cmd : String) (sp : Option (List String)) (os : SpawnOS) (s : Process)
    (hw : which cmd (sp.map (fun ps => String.intercalate ":" ps)) = none)
    (hos : os.spawnFails = true) :
    Command.init which cmd sp = .error (PyErr.commandNotFound cmd) ∧
    Process.start os s = .error (PyErr.commandNotFound
      ("Executable \"" ++ s.command.headD "" ++ "\" not found")) := by
  constructor
  · unfold Command.init
    simp only [hw]
  · unfold Process.start
    simp [hos]

/-- C4 witness: a lookup that fails and a spawn that fails, at concrete
inputs. -/
theorem C4_command_not_found_witness :
    Command.init whichNone "frobnicate" none
        = .error (PyErr.commandNotFound "frobnicate") ∧
    Process.start ⟨true, 0⟩ pUnstarted = .error (PyErr.commandNotFound
      ("Executable \"" ++ "cat" ++ "\" not found")) :=
  C4_command_not_found whichNone "frobnicate" none ⟨true, 0⟩ pUnstarted rfl rfl

/-- C9: `eread` returns the empty string unconditionally when demux is
off; with demux on it drains the buffered stderr pipe output when the
stream is pipe-backed and re-reads the whole file when file-backed. -/
theorem C9_eread_cases (s : Process) (pipe : ErrPipe) (fs : Files) :
    (s.demux = false → Process.eread s pipe fs = .ok ("", pipe)) ∧
    (s.demux = true → s.stderr = none → s.process.isSome = true →
      Process.eread s pipe fs = .ok (pipe.buffered, ⟨""⟩)) ∧
    (∀ p c, s.demux = true → s.stderr = some p →
      dictLookup fs.entries p = some c →
      Process.eread s pipe fs = .ok (c, pipe)) := by
  refine ⟨fun hd => ?_, fun hd hs hp => ?_, fun p c hd hs hl => ?_⟩
  · unfold Process.eread
    simp [hd]
  · unfold Process.eread
    rcases hps : s.process with _ | q
    · rw [hps] at hp; cases hp
    · simp [hd, hs, hps]
  · unfold Process.eread
    simp [hd, hs, hl]

/-- C9 witness: the three read modes at concrete states — demux off, a
pipe-backed demuxed stderr with buffered output, and a file-backed
demuxed stderr. -/
theorem C9_eread_cases_witness :
    Process.eread pDemuxOff ⟨"junk"⟩ ⟨[]⟩ = .ok ("", ⟨"junk"⟩) ∧
    Process.eread pOn ⟨"oops"⟩ ⟨[]⟩ = .ok ("oops", ⟨""⟩) ∧
    Process.eread { pOn with stderr := some "/tmp/e" } ⟨"x"⟩
        ⟨[("/tmp/e", "filedata")]⟩ = .ok ("filedata", ⟨"x"⟩) := by
  refine ⟨?_, ?_, ?_⟩
  · exact (C9_eread_cases pDemuxOff ⟨"junk"⟩ ⟨[]⟩).1 rfl
  · exact (C9_eread_cases pOn ⟨"oops"⟩ ⟨[]⟩).2.1 rfl rfl rfl
  · exact (C9_eread_cases { pOn with stderr := some "/tmp/e" } ⟨"x"⟩
      ⟨[("/tmp/e", "filedata")]⟩).2.2 "/tmp/e" "filedata" rfl rfl rfl

/-- C10: reading `exit_code` on a Process that was never started, or on
one that a successful `kill` has already cleared, dereferences the
absent native handle and raises AttributeError instead of returning an
absent value. -/
theorem C10_exit_code_attribute_error (s t t' : Process) (os : KillOS)
    (hs : s.process = none)
    (hk : Process.kill os t = .ok (t', some true)) :
    Process.exit_code s = .error PyErr.attributeError ∧
    Process.exit_code t' = .error PyErr.attributeError := by
  obtain ⟨h1, _⟩ := kill_ok_some_true os t t' hk
  constructor
  · unfold Process.exit_code Process.is_running
    simp [hs]
  · unfold Process.exit_code Process.is_running
    simp [h1]

/-- C10 witness: a never-started Process and the state left by a
successful kill of a running one. -/
theorem C10_exit_code_attribute_error_witness :
    Process.exit_code pUnstarted = .error PyErr.attributeError ∧
    Process.exit_code pKilled = .error PyErr.attributeError :=
  C10_exit_code_attribute_error pUnstarted pOn pKilled killOSOk rfl rfl

/-- C8 counterexample: the claim quantifies over every string, but
writing the empty string raises IndexError at `string[-1]` before
anything reaches the child's stdin, so no write, encode or flush
happens. -/
theorem C8_write_empty_string_raises :
    Process.write pOn ⟨[], false⟩ "" = .error PyErr.indexError := by rfl

/-- C8 amended: for every non-empty string written to a started Process,
a trailing newline is appended when absent, the result is encoded with
the configured encoding, appended to the child's stdin stream and the
stream is flushed. -/
theorem C8_write_appends_newline (s : Process) (stdin : Stdin) (str : String)
    (hrun : s.process.isSome = true) (hne : str ≠ "") :
    ∃ t, Process.write s stdin str =
        .ok { chunks := stdin.chunks ++ [(s.encoding, t)], flushed := true } ∧
      (str.back = '\n' → t = str) ∧
      (str.back ≠ '\n' → t = str ++ "\n") := by
  unfold Process.write
  rcases hps : s.process with _ | q
  · rw [hps] at hrun; cases hrun
  · by_cases hb : str.back = '\n'
    · refine ⟨str, ?_, fun _ => rfl, fun hc => absurd hb hc⟩
      simp [hne, hb]
    · refine ⟨str ++ "\n", ?_, fun hc => absurd hc hb, fun _ => rfl⟩
      simp [hne, hb]

/-- C8 witness: writing a concrete newline-free string to a started
Process appends exactly one newline, encodes and flushes. -/
theorem C8_write_appends_newline_witness :
    ∃ t, Process.write pOn ⟨[], false⟩ "hi" =
        .ok { chunks := [] ++ [(pOn.encoding, t)], flushed := true } ∧
      ("hi".back = '\n' → t = "hi") ∧
      ("hi".back ≠ '\n' → t = "hi" ++ "\n") :=
  C8_write_appends_newline pOn ⟨[], false⟩ "hi" rfl (by decide)

/-- C5: pushd records the current directory, changes into the resolved
target, and the finally clause restores exactly the recorded directory
on every exit path — whether the block finished normally or raised, and
whatever directory changes the block itself made — while the block's
own outcome is passed through.  The block is universally quantified, so
it may itself be a pushd: nested scoped changes compose, each exit
restoring its own recorded directory. -/
theorem C5_pushd_restores (path : String) (create : Bool)
    (body : World → World × Except PyErr Unit) (w : World)
    (hdir : (pushdDirs w path create).dirs.contains (abspath w.cwd path)
      = true)
    (hsaved : ((body (pushdEntered w path create)).1.dirs).contains w.cwd
      = true) :
    (pushd path create body w).1.cwd = w.cwd ∧
    (pushd path create body w).2 = (body (pushdEntered w path create)).2 := by
  have hch1 : (pushdDirs w path create).chdir (abspath w.cwd path)
      = .ok (pushdEntered w path create) := by
    unfold World.chdir pushdEntered
    rw [if_pos hdir]
  have hch2 : ((body (pushdEntered w path create)).1).chdir w.cwd
      = .ok { (body (pushdEntered w path create)).1 with cwd := w.cwd } := by
    unfold World.chdir
    rw [if_pos hsaved]
  unfold pushd
  unfold pushdDirs at hch1
  simp only [hch1, hch2]
  refine ⟨?_, ?_⟩ <;> trivial

/-- C5 witness: nested scoped changes (enter /a, then /a/b inside it)
whose inner block raises; each exit restores its own recorded directory
and the raised failure is passed through. -/
theorem C5_pushd_restores_witness :
    (pushd "/a" false
        (fun u => pushd "/a/b" false (fun v => (v, .error PyErr.osError)) u)
        ⟨"/", ["/", "/a", "/a/b"]⟩).1.cwd = "/" ∧
    (pushd "/a" false
        (fun u => pushd "/a/b" false (fun v => (v, .error PyErr.osError)) u)
        ⟨"/", ["/", "/a", "/a/b"]⟩).2
      = ((fun u => pushd "/a/b" false (fun v => (v, .error PyErr.osError)) u)
          (pushdEntered ⟨"/", ["/", "/a", "/a/b"]⟩ "/a" false)).2 :=
  C5_pushd_restores "/a" false
    (fun u => pushd "/a/b" false (fun v => (v, .error PyErr.osError)) u)
    ⟨"/", ["/", "/a", "/a/b"]⟩ (by rfl) (by rfl)

/-- Unfolding of `kill` on a state that holds a native handle. -/
theorem kill_started (os : KillOS) (s : Process) (hh : Popen)
    (hps : s.process = some hh) :
    Process.kill os s =
      if os.killRaises then .ok (s, some false)
      else if (Process.killAfterWait os s hh).is_running then
        if os.getpgidRaises then
          .ok (Process.killAfterWait os s hh, some false)
        else if os.isGroupLeader then
          if os.killpgRaises then
            .ok (Process.killAfterWait os s hh, some false)
          else (Process.killAfterWait os s hh).killFinish
        else
          if os.killRaises2 then
            .ok (Process.killAfterWait os s hh, some false)
          else (Process.killAfterWait os s hh).killFinish
      else (Process.killAfterWait os s hh).killFinish := by
  unfold Process.kill
  rw [hps]

/-- C3: `kill` never raises; with no native handle it returns None and
changes nothing; with a handle it returns False only when an OS call of
the kill sequence raised OSError and True when none raised; and on True
the waiter thread has been joined, the native handle is cleared, and a
second `kill` on the resulting state returns None. -/
theorem C3_kill_tristate (os os2 : KillOS) (s : Process)
    (hwf : s.process.isSome = true → s.waitThreadJoined.isSome = true) :
    ∃ out : Process × Option Bool, Process.kill os s = .ok out ∧
      (s.process = none → out = (s, none)) ∧
      (s.process ≠ none → out.2 = some false ∨ out.2 = some true) ∧
      (out.2 = some false →
        os.killRaises = true ∨ os.getpgidRaises = true ∨
        os.killpgRaises = true ∨ os.killRaises2 = true) ∧
      (s.process ≠ none → os.killRaises = false → os.getpgidRaises = false →
        os.killpgRaises = false → os.killRaises2 = false →
        out.2 = some true) ∧
      (out.2 = some true → out.1.process = none ∧
        out.1.waitThreadJoined = some true ∧
        Process.kill os2 out.1 = .ok (out.1, none)) := by
  by_cases hps : s.process = none
  · refine ⟨(s, none), kill_not_started os s hps, fun _ => rfl,
      fun hc => absurd hps hc, ?_, fun hc _ _ _ _ => absurd hps hc, ?_⟩
    · intro hr; simp at hr
    · intro hr; simp at hr
  · obtain ⟨hh, hps2⟩ := Option.ne_none_iff_exists'.mp hps
    have hwt : s.waitThreadJoined.isSome = true := hwf (by rw [hps2]; rfl)
    obtain ⟨j, hj⟩ := Option.isSome_iff_exists.mp hwt
    have mk_false : ∀ x : Process,
        Process.kill os s = .ok (x, some false) →
        (os.killRaises = true ∨ os.getpgidRaises = true ∨
          os.killpgRaises = true ∨ os.killRaises2 = true) →
        ∃ out : Process × Option Bool, Process.kill os s = .ok out ∧
          (s.process = none → out = (s, none)) ∧
          (s.process ≠ none → out.2 = some false ∨ out.2 = some true) ∧
          (out.2 = some false →
            os.killRaises = true ∨ os.getpgidRaises = true ∨
            os.killpgRaises = true ∨ os.killRaises2 = true) ∧
          (s.process ≠ none → os.killRaises = false →
            os.getpgidRaises = false → os.killpgRaises = false →
            os.killRaises2 = false → out.2 = some true) ∧
          (out.2 = some true → out.1.process = none ∧
            out.1.waitThreadJoined = some true ∧
            Process.kill os2 out.1 = .ok (out.1, none)) := by
      intro x hx hfl
      refine ⟨(x, some false), hx, fun hc => absurd hc hps,
        fun _ => Or.inl rfl, fun _ => hfl, ?_, ?_⟩
      · intro _ h1 h2 h3 h4
        rcases hfl with f | f | f | f
        · rw [h1] at f; cases f
        · rw [h2] at f; cases f
        · rw [h3] at f; cases f
        · rw [h4] at f; cases f
      · intro hr; simp at hr
    have mk_true : ∀ x : Process,
        Process.kill os s = .ok (x, some true) →
        x.process = none → x.waitThreadJoined = some true →
        ∃ out : Process × Option Bool, Process.kill os s = .ok out ∧
          (s.process = none → out = (s, none)) ∧
          (s.process ≠ none → out.2 = some false ∨ out.2 = some true) ∧
          (out.2 = some false →
            os.killRaises = true ∨ os.getpgidRaises = true ∨
            os.killpgRaises = true ∨ os.killRaises2 = true) ∧
          (s.process ≠ none → os.killRaises = false →
            os.getpgidRaises = false → os.killpgRaises = false →
            os.killRaises2 = false → out.2 = some true) ∧
          (out.2 = some true → out.1.process = none ∧
            out.1.waitThreadJoined = some true ∧
            Process.kill os2 out.1 = .ok (out.1, none)) := by
      intro x hx hxp hxw
      exact ⟨(x, some true), hx, fun hc => absurd hc hps,
        fun _ => Or.inr rfl, fun hr => by simp at hr,
        fun _ _ _ _ _ => rfl,
        fun _ => ⟨hxp, hxw, kill_not_started os2 x hxp⟩⟩
    have hfin : Process.killFinish (Process.killAfterWait os s hh)
        = .ok ((Process.killAfterWait os s hh).cleared, some true) := by
      unfold Process.killFinish
      rw [killAfterWait_waitThread, hj]
    rcases Bool.eq_false_or_eq_true os.killRaises with hkr | hkr
    · refine mk_false s ?_ (Or.inl hkr)
      rw [kill_started os s hh hps2, hkr]
      simp
    · rcases Bool.eq_false_or_eq_true
        ((Process.killAfterWait os s hh).is_running) with hrun | hrun
      · rcases Bool.eq_false_or_eq_true os.getpgidRaises with hgp | hgp
        · refine mk_false (Process.killAfterWait os s hh) ?_
            (Or.inr (Or.inl hgp))
          rw [kill_started os s hh hps2, hkr, hrun, hgp]
          simp
        · rcases Bool.eq_false_or_eq_true os.isGroupLeader with hld | hld
          · rcases Bool.eq_false_or_eq_true os.killpgRaises with hpg | hpg
            · refine mk_false (Process.killAfterWait os s hh) ?_
                (Or.inr (Or.inr (Or.inl hpg)))
              rw [kill_started os s hh hps2, hkr, hrun, hgp, hld, hpg]
              simp
            · refine mk_true (Process.killAfterWait os s hh).cleared ?_ rfl rfl
              rw [kill_started os s hh hps2, hkr, hrun, hgp, hld, hpg, ← hfin]
              simp
          · rcases Bool.eq_false_or_eq_true os.killRaises2 with hk2 | hk2
            · refine mk_false (Process.killAfterWait os s hh) ?_
                (Or.inr (Or.inr (Or.inr hk2)))
              rw [kill_started os s hh hps2, hkr, hrun, hgp, hld, hk2]
              simp
            · refine mk_true (Process.killAfterWait os s hh).cleared ?_ rfl rfl
              rw [kill_started os s hh hps2, hkr, hrun, hgp, hld, hk2, ← hfin]
              simp
      · refine mk_true (Process.killAfterWait os s hh).cleared ?_ rfl rfl
        rw [kill_started os s hh hps2, hkr, hrun, ← hfin]
        simp

/-- C3 witness: a running Process with a waiter thread, killed with no
OS failure. -/
theorem C3_kill_tristate_witness :
    ∃ out : Process × Option Bool, Process.kill killOSOk pOn = .ok out ∧
      (pOn.process = none → out = (pOn, none)) ∧
      (pOn.process ≠ none → out.2 = some false ∨ out.2 = some true) ∧
      (out.2 = some false →
        killOSOk.killRaises = true ∨ killOSOk.getpgidRaises = true ∨
        killOSOk.killpgRaises = true ∨ killOSOk.killRaises2 = true) ∧
      (pOn.process ≠ none → killOSOk.killRaises = false →
        killOSOk.getpgidRaises = false → killOSOk.killpgRaises = false →
        killOSOk.killRaises2 = false → out.2 = some true) ∧
      (out.2 = some true → out.1.process = none ∧
        out.1.waitThreadJoined = some true ∧
        Process.kill killOSOk out.1 = .ok (out.1, none)) :=
  C3_kill_tristate killOSOk killOSOk pOn (fun _ => rfl)

/-- C7: with the default "--" marker, each named argument becomes the
two tokens [marker+key, value] when the separator is a space and the one
token marker+key+separator+value otherwise; entries follow the
executable and positional arguments in dict insertion order, so a single
entry {key: value} appends exactly those tokens. -/
theorem C7_render_named_arguments (c : Command) (k v : String)
    (hp : dictLookup c.options "kwargs_prefix" = some (PyVal.pyStr "--")) :
    (dictLookup c.options "kwargs_sep" = some (PyVal.pyStr " ") →
      c.command_list = (c.command :: c.args) ++
        c.kwargs.flatMap (fun kv => ["--" ++ kv.1, kv.2.toStr])) ∧
    (dictLookup c.options "kwargs_sep" = some (PyVal.pyStr "=") →
      c.command_list = (c.command :: c.args) ++
        c.kwargs.flatMap (fun kv => ["--" ++ kv.1 ++ "=" ++ kv.2.toStr])) ∧
    (c.kwargs = [(k, PyVal.pyStr v)] →
      (dictLookup c.options "kwargs_sep" = some (PyVal.pyStr " ") →
        c.command_list = (c.command :: c.args) ++ ["--" ++ k, v]) ∧
      (dictLookup c.options "kwargs_sep" = some (PyVal.pyStr "=") →
        c.command_list = (c.command :: c.args) ++ ["--" ++ k ++ "=" ++ v])) := by
  have hs : ∀ sep : String,
      dictLookup c.options "kwargs_sep" = some (.pyStr sep) →
      getStrOpt c.options "kwargs_sep" = sep := by
    intro sep hsep; unfold getStrOpt; rw [hsep]
  have hpx : getStrOpt c.options "kwargs_prefix" = "--" := by
    unfold getStrOpt; rw [hp]
  refine ⟨fun hsep => ?_, fun hsep => ?_,
    fun hkw => ⟨fun hsep => ?_, fun hsep => ?_⟩⟩
  · unfold Command.command_list
    rw [hs " " hsep, hpx]
    simp
  · unfold Command.command_list
    rw [hs "=" hsep, hpx]
    simp
  · unfold Command.command_list
    rw [hs " " hsep, hpx, hkw]
    simp [PyVal.toStr]
  · unfold Command.command_list
    rw [hs "=" hsep, hpx, hkw]
    simp [PyVal.toStr]

/-- C7 witness: concrete Commands with one named argument under both
separators. -/
theorem C7_render_named_arguments_witness :
    cSpace.command_list = ["/bin/tool", "a1", "--key", "value"] ∧
    cEq.command_list = ["/bin/tool", "a1", "--key=value"] := by
  constructor
  · exact ((C7_render_named_arguments cSpace "key" "value" rfl).2.2 rfl).1 rfl
  · exact ((C7_render_named_arguments cEq "key" "value" rfl).2.2 rfl).2 rfl

/-- Lookup distributes over appended dicts; the left dict wins. -/
theorem dictLookup_append {α : Type} (a b : List (String × α)) (k : String) :
    dictLookup (a ++ b) k
      = (dictLookup a k).orElse (fun _ => dictLookup b k) := by
  induction a with
  | nil => simp [dictLookup, Option.orElse]
  | cons kv rest ih =>
    by_cases hk : kv.1 = k
    · simp [dictLookup, hk, Option.orElse]
    · simp [dictLookup, hk, ih]

/-- A key present in no entry looks up to nothing. -/
theorem dictLookup_eq_none {α : Type} (d : List (String × α)) (k : String)
    (h : ¬ k ∈ d.map Prod.fst) : dictLookup d k = none := by
  induction d with
  | nil => rfl
  | cons kv rest ih =>
    rw [List.map_cons, List.mem_cons] at h
    push_neg at h
    have h1 : ¬ kv.1 = k := fun hh => h.1 hh.symm
    simp [dictLookup, h1, ih h.2]

/-- Overwriting every entry keyed `k`: the lookup of `k` becomes the new
value exactly when the key was present. -/
theorem dictLookup_map_set {α : Type} (d : List (String × α)) (k : String)
    (v : α) :
    dictLookup (d.map (fun kv => if kv.1 = k then (k, v) else kv)) k
      = if (dictLookup d k).isSome then some v else none := by
  induction d with
  | nil => rfl
  | cons kv rest ih =>
    by_cases hk : kv.1 = k
    · simp [dictLookup, hk]
    · simp [dictLookup, hk, ih]

/-- Overwriting the entries keyed `k2` does not disturb lookups of a
different key. -/
theorem dictLookup_map_set_ne {α : Type} (d : List (String × α))
    (k2 k : String) (v : α) (hne : k2 ≠ k) :
    dictLookup (d.map (fun kv => if kv.1 = k2 then (k2, v) else kv)) k
      = dictLookup d k := by
  induction d with
  | nil => rfl
  | cons kv rest ih =>
    by_cases hk : kv.1 = k2
    · simp [dictLookup, hk, hne, ih]
    · simp [dictLookup, hk, ih]

/-- Python dict assignment: the assigned key looks up to the assigned
value. -/
theorem dictLookup_insert_self {α : Type} (d : List (String × α))
    (k : String) (v : α) :
    dictLookup (dictInsert d k v) k = some v := by
  unfold dictInsert
  by_cases hs : (dictLookup d k).isSome
  · rw [if_pos hs, dictLookup_map_set, if_pos hs]
  · rw [if_neg hs, dictLookup_append]
    rcases hl : dictLookup d k with _ | w
    · simp [dictLookup, Option.orElse]
    · rw [hl] at hs; simp at hs

/-- Python dict assignment does not disturb lookups of other keys. -/
theorem dictLookup_insert_ne {α : Type} (d : List (String × α))
    (k2 k : String) (v : α) (hne : k2 ≠ k) :
    dictLookup (dictInsert d k2 v) k = dictLookup d k := by
  unfold dictInsert
  by_cases hs : (dictLookup d k2).isSome
  · rw [if_pos hs, dictLookup_map_set_ne d k2 k v hne]
  · rw [if_neg hs, dictLookup_append]
    rcases hl : dictLookup d k with _ | w
    · simp [dictLookup, hne, Option.orElse]
    · simp [Option.orElse]

/-- Dict-unpacking merge of two Python dicts: a key looks up to the
second dict's value when present there, else to the first dict's. -/
theorem dictLookup_update {α : Type} (a b : List (String × α)) (k : String)
    (hb : (b.map Prod.fst).Nodup) :
    dictLookup (dictUpdate a b) k
      = (dictLookup b k).orElse (fun _ => dictLookup a k) := by
  induction b generalizing a with
  | nil => simp [dictUpdate, dictLookup, Option.orElse]
  | cons kv rest ih =>
    rw [List.map_cons, List.nodup_cons] at hb
    have hupd : dictUpdate a (kv :: rest)
        = dictUpdate (dictInsert a kv.1 kv.2) rest := rfl
    rw [hupd, ih _ hb.2]
    by_cases hk : kv.1 = k
    · subst hk
      rw [dictLookup_eq_none rest kv.1 hb.1]
      simp [dictLookup, Option.orElse, dictLookup_insert_self]
    · rw [dictLookup_insert_ne a kv.1 k kv.2 hk]
      simp [dictLookup, hk]

/-- Filtering a dict with unique keys keeps its keys unique. -/
theorem nodup_keys_filter {α : Type} (d : List (String × α))
    (p : String × α → Bool) (h : (d.map Prod.fst).Nodup) :
    ((d.filter p).map Prod.fst).Nodup :=
  List.Nodup.sublist (List.Sublist.map Prod.fst (List.filter_sublist d)) h

/-- The key-preserving filterMap that extracts option overrides keeps
keys unique when the source keys are unique. -/
theorem nodup_keys_filterMap_assoc {α β : Type} (l : List (String × α))
    (g : String → Option β) (h : (l.map Prod.fst).Nodup) :
    ((l.filterMap (fun o => (g o.1).map (fun v => (o.1, v)))).map
      Prod.fst).Nodup := by
  induction l with
  | nil => simp
  | cons kv rest ih =>
    rw [List.map_cons, List.nodup_cons] at h
    rw [List.filterMap_cons]
    rcases hg : g kv.1 with _ | w
    · simp only [Option.map_none']
      exact ih h.2
    · simp only [Option.map_some']
      rw [List.map_cons, List.nodup_cons]
      refine ⟨?_, ih h.2⟩
      intro hmem
      rw [List.mem_map] at hmem
      obtain ⟨x, hx, hx1⟩ := hmem
      rw [List.mem_filterMap] at hx
      obtain ⟨o, ho, hfo⟩ := hx
      rcases hgo : g o.1 with _ | u
      · rw [hgo] at hfo; cases hfo
      · rw [hgo] at hfo
        simp only [Option.map_some', Option.some.injEq] at hfo
        apply h.1
        rw [List.mem_map]
        refine ⟨o, ho, ?_⟩
        rw [← hx1, ← hfo]

/-- C6: bake writes only the freshly allocated Command object: the
receiver's heap cell is untouched (so its rendered argument vector,
kwargs and options are unchanged), and the new Command concatenates the
receiver's positional args with the new ones and shallow-merges kwargs
and options, entries of the bake call overriding the receiver's entries
with the same key. -/
theorem C6_bake_is_non_mutating
    (which : String → Option String → Option String)
    (st st' : Store) (r r' : Nat) (args : List String)
    (kwargs : List (String × PyVal)) (c c2 : Command)
    (hc : st.read r = some c)
    (hb : Command.bake which c args kwargs = .ok c2)
    (h : Store.bakeAt which st r args kwargs = .ok (st', r'))
    (hnodup : (kwargs.map Prod.fst).Nodup) :
    st'.read r = some c ∧
    st'.read r' = some c2 ∧
    c2.args = c.args ++ args ∧
    (∀ k, dictLookup c2.kwargs k =
      (dictLookup (bakeRemainingKwargs kwargs) k).orElse
        (fun _ => dictLookup c.kwargs k)) ∧
    (∀ k, dictLookup c2.options k =
      (dictLookup (bakeOptionOverrides kwargs) k).orElse
        (fun _ => dictLookup c.options k)) := by
  have hlt : r < st.cmds.length := by
    unfold Store.read at hc
    exact (List.getElem?_eq_some.mp hc).1
  simp only [Store.bakeAt, hc, hb] at h
  simp only [Except.ok.injEq, Prod.mk.injEq] at h
  obtain ⟨hst, hr⟩ := h
  have hfields : c2.args = c.args ++ args ∧
      c2.kwargs = dictUpdate c.kwargs (bakeRemainingKwargs kwargs) ∧
      c2.options = dictUpdate c.options (bakeOptionOverrides kwargs) := by
    unfold Command.bake at hb
    rcases hinit : Command.init which c.command c.search_paths with e | cmd0
    · rw [hinit] at hb; cases hb
    · rw [hinit] at hb
      simp only [Except.ok.injEq] at hb
      rw [← hb]
      exact ⟨rfl, rfl, rfl⟩
  refine ⟨?_, ?_, hfields.1, ?_, ?_⟩
  · rw [← hst]
    have h1 : Store.read ⟨st.cmds ++ [c2]⟩ r = st.cmds[r]? :=
      List.getElem?_append_left hlt
    rw [h1]
    exact hc
  · rw [← hst, ← hr]
    exact List.getElem?_concat_length st.cmds c2
  · intro k
    rw [hfields.2.1]
    exact dictLookup_update c.kwargs (bakeRemainingKwargs kwargs) k
      (nodup_keys_filter kwargs _ hnodup)
  · intro k
    rw [hfields.2.2]
    exact dictLookup_update c.options (bakeOptionOverrides kwargs) k
      (nodup_keys_filterMap_assoc Command.DEFAULT_OPTIONS
        (fun s => dictLookup kwargs ("_" ++ s)) (by decide))

/-- C6 witness: baking one positional argument, two kwargs and one
option override onto a concrete Command in a one-cell heap. -/
theorem C6_bake_is_non_mutating_witness :
    Store.read ⟨[c0, c2W]⟩ 0 = some c0 ∧
    Store.read ⟨[c0, c2W]⟩ 1 = some c2W ∧
    c2W.args = c0.args ++ ["x1"] ∧
    dictLookup c2W.kwargs "k0" =
      (dictLookup (bakeRemainingKwargs kwargsW) "k0").orElse
        (fun _ => dictLookup c0.kwargs "k0") ∧
    dictLookup c2W.options "fg" =
      (dictLookup (bakeOptionOverrides kwargsW) "fg").orElse
        (fun _ => dictLookup c0.options "fg") := by
  obtain ⟨h1, h2, h3, h4, h5⟩ :=
    C6_bake_is_non_mutating whichId ⟨[c0]⟩ ⟨[c0, c2W]⟩ 0 1 ["x1"] kwargsW
      c0 c2W rfl rfl rfl (by decide)
  exact ⟨h1, h2, h3, h4 "k0", h5 "fg"⟩

end Tsh
